import Mathlib

/-!
Shallow embedding of the w3up-client repository (JavaScript) in Lean 4.

The repository is a thin glue layer over external UCAN / principal /
upload-client libraries.  The embedding below translates:

  * the settings module (`toPrincipal`, `importSettings`, `exportSettings`)
    from `src/unnamed/part_000`;
  * the two `Client` class versions contained in `src/src/client.js`
    (namespaces `ClientV1` and `ClientV2`);
  * a spec-modelled delegation codec (`writeDelegation` /
    `importDelegation`) for `src/delegation.js`, whose source is not in the
    tree (only its test `src/test/delegation.test.js` is).

JavaScript exceptions are modelled by `Option` (`none` = the call throws);
JavaScript `undefined` is the `JSVal.undef` constructor.  The external
libraries (`@ucanto/principal`, `@ucanto/core`, `@web3-storage/access`,
`@web3-storage/upload-client`) are modelled by small concrete executable
functions, faithful to their documented behaviour where the repository
relies on it (decode/parse/format of signing principals, UCAN parse/format,
delegation create/import), and by abstract function fields of the agent /
client models where the repository merely forwards calls.
-/

namespace W3

/-- Model of a `@ucanto/principal` signing principal: its raw secret bytes.
The library accepts exactly byte strings of a fixed shape (a multicodec
tag followed by the key material); `validBytes` models that shape check. -/
structure Principal where
  bytes : List Nat
deriving DecidableEq, Repr

/-- Byte strings accepted by the principal decoder: a two-byte multicodec
tag `0x80 0x26` followed by 32 key bytes (34 bytes in total). -/
def validBytes (b : List Nat) : Bool :=
  b.length == 34 && b.take 2 == [128, 38]

/-- Model of a parsed UCAN token (`@ucanto/core` `UCAN`): an opaque payload
identifying the token. -/
structure UCANm where
  payload : Nat
deriving DecidableEq, Repr

/-- Model of an IPLD block holding a UCAN, as returned by `UCAN.write`. -/
structure Block where
  ucan : UCANm
deriving DecidableEq, Repr

/-- Model of a `@ucanto/core` `Delegation` object: its root block. -/
structure DelegationV where
  root : Block
deriving DecidableEq, Repr

/-- Model of the JavaScript values the settings module manipulates.
JSON strings are symbolic: a string is tagged by what it encodes
(`didStr b` is the `did:key:...` formatted-principal string for secret
bytes `b`, `b64Str b` is the base64 string of bytes `b`, `jwtStr u` is the
JWT form of UCAN `u`, `str s` is any other string).  `undef` is
JavaScript `undefined`; `bytes` is a `Uint8Array`/`Buffer`; `prin` and
`deleg` are the library objects.  JSON numbers and booleans behave exactly
like opaque strings in this module (generic pass-through keys) and are
subsumed by `str`. -/
inductive JSVal where
  | null
  | undef
  | str (s : String)
  | didStr (b : List Nat)
  | b64Str (b : List Nat)
  | jwtStr (u : UCANm)
  | bytes (b : List Nat)
  | prin (p : Principal)
  | deleg (d : DelegationV)
  | obj (fields : List (String × JSVal))

/-- Association-list lookup modelling `Map.prototype.get` /
property access on a plain object (absent key gives `none`). -/
def mapLookup : List (String × JSVal) → String → Option JSVal
  | [], _ => none
  | (k, v) :: rest, q => if k = q then some v else mapLookup rest q

/-- `Map.prototype.has`. -/
def mapHas (m : List (String × JSVal)) (q : String) : Bool :=
  (mapLookup m q).isSome

/-- `Map.prototype.get`: an absent key reads as `undefined`. -/
def mapGetD (m : List (String × JSVal)) (q : String) : JSVal :=
  (mapLookup m q).getD JSVal.undef

/-- `Map.prototype.set`: replace in place, keeping the original insertion
position, or append when the key is new. -/
def mapSet : List (String × JSVal) → String → JSVal → List (String × JSVal)
  | [], q, v => [(q, v)]
  | (k, w) :: rest, q, v =>
    if k = q then (q, v) :: rest else (k, w) :: mapSet rest q v

/-- Property access `v.k` (after an optional-chaining guard):
on a non-object it yields `undefined`, on an object the stored field or
`undefined`. -/
def jget (v : JSVal) (k : String) : JSVal :=
  match v with
  | .obj fields => (mapLookup fields k).getD JSVal.undef
  | _ => JSVal.undef

/-- `SigningPrincipal.decode` (external): accepts a byte string of the
valid shape, throws (`none`) on anything else, in particular on every
non-byte value. -/
def spDecode (v : JSVal) : Option Principal :=
  match v with
  | .bytes b => if validBytes b then some (Principal.mk b) else none
  | _ => none

/-- `SigningPrincipal.parse` (external): accepts exactly the formatted
`did:key:...` string of a valid principal, throws on everything else. -/
def spParse (v : JSVal) : Option Principal :=
  match v with
  | .didStr b => if validBytes b then some (Principal.mk b) else none
  | _ => none

/-- `SigningPrincipal.format` applied to an actual principal (total). -/
def spFormatP (p : Principal) : JSVal :=
  .didStr p.bytes

/-- `SigningPrincipal.format` applied to an arbitrary value: the library
reads the `bytes` of its argument and encodes them, which throws on any
value that is not a principal object (in particular on a string). -/
def spFormatAny (v : JSVal) : Option JSVal :=
  match v with
  | .prin p => some (spFormatP p)
  | _ => none

/-- `Buffer.from(v, 'base64')` (Node): on a string it never throws — a
base64 string yields its bytes and any other string yields junk bytes that
are never a valid principal encoding (modelled as `[]`); on a
`Uint8Array`/`Buffer` the encoding argument is ignored and the bytes are
copied; on `null`, `undefined` and other objects it throws. -/
def bufferFromB64 (v : JSVal) : Option (List Nat) :=
  match v with
  | .b64Str b => some b
  | .didStr _ => some []
  | .jwtStr _ => some []
  | .str _ => some []
  | .bytes b => some b
  | _ => none

/-- `toPrincipal` from `src/unnamed/part_000` lines 16–32: try
`SigningPrincipal.decode`, then `SigningPrincipal.parse`, then base64
decoding followed by `SigningPrincipal.decode`, each `try`/`catch` falling
through to the next; `null` when everything throws. -/
def toPrincipal (secret : JSVal) : Option Principal :=
  match spDecode secret with
  | some p => some p
  | none =>
    match spParse secret with
    | some p => some p
    | none =>
      match bufferFromB64 secret with
      | some b => spDecode (.bytes b)
      | none => none

/-- `UCAN.parse` (external): accepts exactly a JWT-formatted UCAN string,
throws on everything else (in particular on `undefined`). -/
def ucanParse (v : JSVal) : Option UCANm :=
  match v with
  | .jwtStr u => some u
  | _ => none

/-- One entry of the `delegations` object in `importSettings`
(lines 56–63 of `src/unnamed/part_000`): `UCAN.parse(del?.ucan)`, then
`UCAN.write` giving the root block, then `Delegation.create({ root })`,
keeping `del.alias`. -/
def importDelegEntry (did : String) (del : JSVal) : Option (String × JSVal) :=
  match ucanParse (jget del "ucan") with
  | some u =>
    some (did, .obj [("ucan", .deleg (DelegationV.mk (Block.mk u))), ("alias", jget del "alias")])
  | none => none

/-- The `for (const [did, del] of Object.entries(...))` loop of
`importSettings`, building the result object in iteration order. -/
def importDelegList : List (String × JSVal) → Option (List (String × JSVal))
  | [] => some []
  | (did, del) :: rest =>
    match importDelegEntry did del with
    | some e =>
      match importDelegList rest with
      | some es => some (e :: es)
      | none => none
    | none => none

/-- `Object.entries(imported.delegations)` and the loop over it: an object
iterates its fields; the empty string has no entries; `null` and
`undefined` make `Object.entries` throw; any other value yields entries on
which `UCAN.parse(del?.ucan)` throws. -/
def importDelegValue (v : JSVal) : Option (List (String × JSVal)) :=
  match v with
  | .obj es => importDelegList es
  | .str "" => some []
  | _ => none

/-- The body of the `for (var key of Object.keys(imported))` loop of
`importSettings` (lines 45–69 of `src/unnamed/part_000`) for one key. -/
def importKey (settings : List (String × JSVal)) (key : String) (v : JSVal) :
    Option (List (String × JSVal)) :=
  if key = "secret" ∨ key = "agent_secret" ∨ key = "account_secret" then
    match toPrincipal v with
    | some p => some (mapSet settings key (spFormatP p))
    | none => some settings
  else if key = "delegations" then
    match importDelegValue v with
    | some ds => some (mapSet settings "delegations" (.obj ds))
    | none => none
  else
    some (mapSet settings key v)

/-- The whole key loop of `importSettings`, threading the settings map. -/
def importEntries : List (String × JSVal) → List (String × JSVal) →
    Option (List (String × JSVal))
  | [], settings => some settings
  | (k, v) :: rest, settings =>
    match importKey settings k v with
    | some s => importEntries rest s
    | none => none

/-- `importSettings` from `src/unnamed/part_000` lines 40–78.  `JSON.parse`
is external and modelled away: the argument is the parsed JSON value.  A
falsy parse result (`null`, the empty string) skips the loop and returns
the empty map; the claims only concern object (and null) inputs, and the
remaining non-object values are modelled as an error.  The trailing
`if (!settings.has('account_secret') || ...)` block of the source has an
empty (commented-out) body and no effect. -/
def importSettings (imported : JSVal) : Option (List (String × JSVal)) :=
  match imported with
  | .null => some []
  | .str "" => some []
  | .obj entries => importEntries entries []
  | _ => none

/-- One entry of the `delegations` loop of `exportSettings`
(lines 107–114 of `src/unnamed/part_000`): `Delegation.import` of
`[del?.ucan?.root]` (which throws when the chained access is `undefined`
or the root is not a block), then `UCAN.format` of the imported
delegation, keeping `del.alias`. -/
def exportDelegEntry (did : String) (del : JSVal) : Option (String × JSVal) :=
  match jget del "ucan" with
  | .deleg dv =>
    some (did, .obj [("ucan", .jwtStr dv.root.ucan), ("alias", jget del "alias")])
  | _ => none

/-- The `for (const [did, del] of Object.entries(...))` loop of
`exportSettings`, in iteration order. -/
def exportDelegList : List (String × JSVal) → Option (List (String × JSVal))
  | [] => some []
  | (did, del) :: rest =>
    match exportDelegEntry did del with
    | some e =>
      match exportDelegList rest with
      | some es => some (e :: es)
      | none => none
    | none => none

/-- `Object.entries(settings.get('delegations'))` on the stored value in
`exportSettings`; as in the import direction, only an object iterates. -/
def exportDelegValue (v : JSVal) : Option (List (String × JSVal)) :=
  match v with
  | .obj es => exportDelegList es
  | .str "" => some []
  | _ => none

/-- `exportSettings` from `src/unnamed/part_000` lines 86–119, building the
output object field by field in source order (`secret`, `agent_secret`,
`account_secret`, `delegations`).  Note the asymmetry in the source: the
`secret` branch applies `SigningPrincipal.format` directly to the stored
value, while the `agent_secret` / `account_secret` branches first apply
`SigningPrincipal.parse`. -/
def exportSettings (settings : List (String × JSVal)) :
    Option (List (String × JSVal)) :=
  let o1 :=
    if mapHas settings "secret" then
      match spFormatAny (mapGetD settings "secret") with
      | some f => some [("secret", f)]
      | none => none
    else some []
  match o1 with
  | none => none
  | some l1 =>
    let o2 :=
      if mapHas settings "agent_secret" then
        match spParse (mapGetD settings "agent_secret") with
        | some p => some [("agent_secret", spFormatP p)]
        | none => none
      else some []
    match o2 with
    | none => none
    | some l2 =>
      let o3 :=
        if mapHas settings "account_secret" then
          match spParse (mapGetD settings "account_secret") with
          | some p => some [("account_secret", spFormatP p)]
          | none => none
        else some []
      match o3 with
      | none => none
      | some l3 =>
        let o4 :=
          if mapHas settings "delegations" then
            match exportDelegValue (mapGetD settings "delegations") with
            | some ds => some [("delegations", JSVal.obj ds)]
            | none => none
          else some []
        match o4 with
        | none => none
        | some l4 => some (l1 ++ l2 ++ l3 ++ l4)

/-- Modelled from the spec: `src/delegation.js` (the `writeDelegation` and
`importDelegation` functions exercised by `src/test/delegation.test.js`)
is not under `src/`; the spec describes the subsystem as a thin sequence
"generate principal → build delegation → encode to bytes / decode from
bytes".  A delegation record built by the module: the issuer principal
bytes, the audience principal bytes, and the expiration. -/
structure WrittenDelegation where
  issuer : List Nat
  audience : List Nat
  expiration : Nat
deriving DecidableEq, Repr

/-- Modelled from the spec: `writeDelegation` encodes a delegation to a
byte string (the test checks the result is a `Uint8Array`): each variable
part is length-prefixed. -/
def writeDelegation (d : WrittenDelegation) : List Nat :=
  d.issuer.length :: (d.issuer ++ d.audience.length :: (d.audience ++ [d.expiration]))

/-- Modelled from the spec: `importDelegation` decodes the bytes produced
by `writeDelegation` back to the delegation record, failing on malformed
input. -/
def importDelegation (b : List Nat) : Option WrittenDelegation :=
  match b with
  | n :: rest =>
    match rest.drop n with
    | m :: rest2 =>
      match rest2.drop m with
      | [e] => some (WrittenDelegation.mk (rest.take n) (rest2.take m) e)
      | _ => none
    | [] => none
  | [] => none

/-- Metadata attached to an agent / audience
(`@web3-storage/access` `AgentMeta`): a name and a device type. -/
structure AgentMeta where
  name : String
  type : String
deriving DecidableEq, Repr

/-- Metadata the agent stores for a space (external `@web3-storage/access`
agent data). -/
structure SpaceMeta where
  name : String
deriving DecidableEq, Repr

/-- The `Space` class (`src/space.js`, a plain carrier of the constructor
arguments `new Space(did, meta)`): `meta` may be `undefined` when the DID
has no entry in the agent's spaces map. -/
structure Space where
  did : String
  meta : Option SpaceMeta
deriving DecidableEq, Repr

/-- Lookup in the agent's spaces map (`Map<DID, SpaceMeta>`). -/
def metaLookup : List (String × SpaceMeta) → String → Option SpaceMeta
  | [], _ => none
  | (k, m) :: rest, q => if k = q then some m else metaLookup rest q

/-- The argument object built by `createDelegation` and passed to the
external `agent.delegate` call: `{ ...options, abilities, audience,
audienceMeta }`. -/
structure DelegateArgs where
  expiration : Option Nat
  abilities : List String
  audience : String
  audienceMeta : AgentMeta
deriving DecidableEq, Repr

/-- The value returned by the external `agent.delegate` call: a root block
and a block store, both opaque to this repository. -/
structure DelegOut where
  root : Nat
  blocks : Nat
deriving DecidableEq, Repr

/-- Abstract model of the external `@web3-storage/access` agent the client
wraps: its issuer, its spaces map (in `Map` iteration order), its current
space DID (possibly unset), and the behaviour of its `createSpace` and
`delegate` calls as arbitrary functions. -/
structure AgentModel where
  issuerDid : String
  spacesList : List (String × SpaceMeta)
  currentSpaceDid : Option String
  createSpaceFn : Option String → String × SpaceMeta
  delegateFn : DelegateArgs → DelegOut

/-- The `options` argument of `createDelegation`
(`Omit<UCANOptions, 'audience'> & { audienceMeta? }`). -/
structure UCANOptions where
  expiration : Option Nat
  audienceMeta : Option AgentMeta
deriving DecidableEq, Repr

/-- The metadata recorded on a client `Delegation`
(`createDelegation` passes `{ audience: audienceMeta }`). -/
structure DelegMeta where
  audience : Option AgentMeta
deriving DecidableEq, Repr

/-- The `Delegation` class of `src/delegation.js` as used by `client.js`: a
plain carrier of `new Delegation(root, blocks, meta)`. -/
structure ClientDelegation where
  root : Nat
  blocks : Nat
  meta : DelegMeta
deriving DecidableEq, Repr

/-- The `options` argument of `uploadFile` / `uploadDirectory`
(`UploadOptions`): the `connection` field the client overwrites and two
representative caller-owned fields. -/
structure UploadOptions where
  connection : Option Nat
  retries : Option Nat
  shardSize : Option Nat
deriving DecidableEq, Repr

/-- Abstract model of a `Client` instance: the wrapped agent, the upload
service connection from the resolved service configuration
(`this._serviceConf.upload`), the inherited `Base._invocationConfig`
(external, `src/base.js` is not in the tree), and the external
upload-client entry points `uploadFile` / `uploadDirectory`. -/
structure ClientModel where
  agent : AgentModel
  serviceConfUpload : Nat
  invocationConfigFn : List String → Nat
  uploadFileFn : Nat → Nat → UploadOptions → Nat
  uploadDirectoryFn : Nat → List Nat → UploadOptions → Nat

/-- `StoreCapabilities.add.can` (external constant of
`@web3-storage/capabilities`). -/
def storeAddCan : String := "store/add"

/-- `UploadCapabilities.add.can` (external constant of
`@web3-storage/capabilities`). -/
def uploadAddCan : String := "upload/add"

namespace ClientV1

/-- `Client.uploadFile` (first class version, `src/src/client.js` lines
32–36): request the invocation configuration for `store/add` and
`upload/add`, overwrite `options.connection` with the upload service
connection, and delegate to the external `uploadFile`.  The mutated
`options` object is returned alongside the result to make the frame
effect on the caller's object explicit. -/
def uploadFile (c : ClientModel) (file : Nat) (options : UploadOptions) :
    Nat × UploadOptions :=
  let conf := c.invocationConfigFn [storeAddCan, uploadAddCan]
  let options1 := { options with connection := some c.serviceConfUpload }
  (c.uploadFileFn conf file options1, options1)

/-- `Client.uploadDirectory` (first class version, lines 46–50). -/
def uploadDirectory (c : ClientModel) (files : List Nat) (options : UploadOptions) :
    Nat × UploadOptions :=
  let conf := c.invocationConfigFn [storeAddCan, uploadAddCan]
  let options1 := { options with connection := some c.serviceConfUpload }
  (c.uploadDirectoryFn conf files options1, options1)

/-- `Client.agent` (first class version, lines 55–57). -/
def agent (c : ClientModel) : String :=
  c.agent.issuerDid

/-- `Client.currentSpace` (first class version, lines 62–65):
`did ? new Space(did, this._agent.spaces.get(did)) : undefined`, where
JavaScript truthiness makes both `undefined` and the empty string falsy. -/
def currentSpace (c : ClientModel) : Option Space :=
  match c.agent.currentSpaceDid with
  | some d => if d = "" then none else some (Space.mk d (metaLookup c.agent.spacesList d))
  | none => none

/-- `Client.spaces` (first class version, lines 79–81). -/
def spaces (c : ClientModel) : List Space :=
  c.agent.spacesList.map (fun p => Space.mk p.1 (some p.2))

/-- `Client.createSpace` (first class version, lines 88–91): destructure
the agent's result and return `new Space(did, meta)`. -/
def createSpace (c : ClientModel) (name : Option String) : Option Space :=
  let r := c.agent.createSpaceFn name
  some (Space.mk r.1 (some r.2))

/-- `Client.createDelegation` (first class version, lines 165–174): the
default `audienceMeta` is `{ name: 'agent', type: 'device' }`; the spread
`{ ...options, abilities, audience, audienceMeta }` is passed to
`agent.delegate`, and the returned root and blocks are wrapped in
`new Delegation(root, blocks, { audience: audienceMeta })`. -/
def createDelegation (c : ClientModel) (audience : String)
    (abilities : List String) (options : UCANOptions) : ClientDelegation :=
  let audienceMeta := options.audienceMeta.getD (AgentMeta.mk "agent" "device")
  let d := c.agent.delegateFn
    (DelegateArgs.mk options.expiration abilities audience audienceMeta)
  ClientDelegation.mk d.root d.blocks (DelegMeta.mk (some audienceMeta))

end ClientV1

namespace ClientV2

/-- `Client.uploadFile` (second class version, `src/src/client.js` lines
210–214; textually identical to the first version's). -/
def uploadFile (c : ClientModel) (file : Nat) (options : UploadOptions) :
    Nat × UploadOptions :=
  let conf := c.invocationConfigFn [storeAddCan, uploadAddCan]
  let options1 := { options with connection := some c.serviceConfUpload }
  (c.uploadFileFn conf file options1, options1)

/-- `Client.uploadDirectory` (second class version, lines 224–228). -/
def uploadDirectory (c : ClientModel) (files : List Nat) (options : UploadOptions) :
    Nat × UploadOptions :=
  let conf := c.invocationConfigFn [storeAddCan, uploadAddCan]
  let options1 := { options with connection := some c.serviceConfUpload }
  (c.uploadDirectoryFn conf files options1, options1)

/-- `Client.agent` (second class version, lines 233–235). -/
def agent (c : ClientModel) : String :=
  c.agent.issuerDid

/-- `Client.currentSpace` (second class version, lines 240–243). -/
def currentSpace (c : ClientModel) : Option Space :=
  match c.agent.currentSpaceDid with
  | some d => if d = "" then none else some (Space.mk d (metaLookup c.agent.spacesList d))
  | none => none

/-- `Client.spaces` (second class version, lines 257–259). -/
def spaces (c : ClientModel) : List Space :=
  c.agent.spacesList.map (fun p => Space.mk p.1 (some p.2))

/-- `Client.createSpace` (second class version, lines 266–268): the agent
call is awaited but its result is discarded, so the method returns
`undefined`. -/
def createSpace (c : ClientModel) (name : Option String) : Option Space :=
  let _ := c.agent.createSpaceFn name
  none

/-- `Client.createDelegation` (second class version, lines 341–350): as in
the first version but with default `audienceMeta`
`{ name: '', type: 'device' }`. -/
def createDelegation (c : ClientModel) (audience : String)
    (abilities : List String) (options : UCANOptions) : ClientDelegation :=
  let audienceMeta := options.audienceMeta.getD (AgentMeta.mk "" "device")
  let d := c.agent.delegateFn
    (DelegateArgs.mk options.expiration abilities audience audienceMeta)
  ClientDelegation.mk d.root d.blocks (DelegMeta.mk (some audienceMeta))

end ClientV2

/-- A well-formed entry value of a `delegations` JSON object: an object
with a JWT `ucan` field and an `alias` field, in that order. -/
def wfDelegEntry (del : JSVal) : Prop :=
  ∃ u a, del = JSVal.obj [("ucan", .jwtStr u), ("alias", a)]

/-- What `importSettings` turns a well-formed `delegations` entry value
into: the JWT is parsed, written to a root block and wrapped in a
`Delegation`; the alias is kept. -/
def impD (del : JSVal) : JSVal :=
  match del with
  | .obj [("ucan", .jwtStr u), ("alias", a)] =>
    .obj [("ucan", .deleg (DelegationV.mk (Block.mk u))), ("alias", a)]
  | _ => .null

/-- A concrete principal byte string accepted by the decoder, used by the
concrete witnesses and counterexamples. -/
def sampleBytes : List Nat := 128 :: 38 :: List.replicate 32 7

/-- A second, distinct valid principal byte string. -/
def sampleBytes2 : List Nat := 128 :: 38 :: List.replicate 32 9

/-- A concrete agent for the witnesses. -/
def agentC : AgentModel :=
  AgentModel.mk "did:key:agent" [("did:key:space1", SpaceMeta.mk "sp")]
    (some "did:key:space1") (fun _ => ("did:key:new", SpaceMeta.mk "fresh"))
    (fun _ => DelegOut.mk 11 22)

/-- A concrete client for the witnesses. -/
def clientC : ClientModel :=
  ClientModel.mk agentC 7 (fun _ => 3) (fun _ _ _ => 5) (fun _ _ _ => 6)

/-! ## Helper lemmas -/

theorem importDelegEntry_wf (d : String) (del : JSVal) (h : wfDelegEntry del) :
    importDelegEntry d del = some (d, impD del) := by
  obtain ⟨u, a, rfl⟩ := h
  simp [importDelegEntry, impD, jget, mapLookup, ucanParse]

theorem importDelegList_wf (ds : List (String × JSVal))
    (h : ∀ p ∈ ds, wfDelegEntry p.2) :
    importDelegList ds = some (ds.map (fun p => (p.1, impD p.2))) := by
  induction ds with
  | nil => rfl
  | cons p rest ih =>
    obtain ⟨d, del⟩ := p
    have h1 : wfDelegEntry del := h (d, del) (by simp)
    have h2 : ∀ q ∈ rest, wfDelegEntry q.2 := fun q hq => h q (by simp [hq])
    simp [importDelegList, importDelegEntry_wf d del h1, ih h2]

theorem exportDelegEntry_impD (d : String) (del : JSVal) (h : wfDelegEntry del) :
    exportDelegEntry d (impD del) = some (d, del) := by
  obtain ⟨u, a, rfl⟩ := h
  simp [exportDelegEntry, impD, jget, mapLookup]

theorem exportDelegList_impD (ds : List (String × JSVal))
    (h : ∀ p ∈ ds, wfDelegEntry p.2) :
    exportDelegList (ds.map (fun p => (p.1, impD p.2))) = some ds := by
  induction ds with
  | nil => rfl
  | cons p rest ih =>
    obtain ⟨d, del⟩ := p
    have h1 : wfDelegEntry del := h (d, del) (by simp)
    have h2 : ∀ q ∈ rest, wfDelegEntry q.2 := fun q hq => h q (by simp [hq])
    simp [exportDelegList, exportDelegEntry_impD d del h1, ih h2]

theorem mapLookup_set_ne (m : List (String × JSVal)) (k q : String) (v : JSVal)
    (h : q ≠ k) : mapLookup (mapSet m k v) q = mapLookup m q := by
  induction m with
  | nil => simp [mapSet, mapLookup, Ne.symm h]
  | cons p rest ih =>
    obtain ⟨k1, v1⟩ := p
    by_cases hk : k1 = k
    · subst hk
      simp [mapSet, mapLookup, Ne.symm h]
    · simp [mapSet, mapLookup, hk]
      by_cases hq : k1 = q <;> simp [hq, ih]

theorem importKey_lookup_ne (s s2 : List (String × JSVal)) (k q : String)
    (v : JSVal) (h : importKey s k v = some s2) (hq : q ≠ k) :
    mapLookup s2 q = mapLookup s q := by
  unfold importKey at h
  by_cases h1 : k = "secret" ∨ k = "agent_secret" ∨ k = "account_secret"
  · rw [if_pos h1] at h
    cases hp : toPrincipal v with
    | some p =>
      rw [hp] at h
      cases h
      exact mapLookup_set_ne s k q (spFormatP p) hq
    | none =>
      rw [hp] at h
      cases h
      rfl
  · rw [if_neg h1] at h
    by_cases h2 : k = "delegations"
    · rw [if_pos h2] at h
      cases hv : importDelegValue v with
      | some ds =>
        rw [hv] at h
        cases h
        exact mapLookup_set_ne s "delegations" q (.obj ds) (h2 ▸ hq)
      | none => rw [hv] at h; cases h
    · rw [if_neg h2] at h
      cases h
      exact mapLookup_set_ne s k q v hq

theorem importEntries_lookup_ne (l : List (String × JSVal)) (q : String) :
    ∀ s m, importEntries l s = some m → (∀ p ∈ l, p.1 ≠ q) →
    mapLookup m q = mapLookup s q := by
  induction l with
  | nil => intro s m h _; cases h; rfl
  | cons p rest ih =>
    intro s m h hfresh
    obtain ⟨k, v⟩ := p
    unfold importEntries at h
    cases hk : importKey s k v with
    | some s1 =>
      rw [hk] at h
      have hne : q ≠ k := fun hh => hfresh (k, v) (by simp) hh.symm
      have hrest : ∀ r ∈ rest, r.1 ≠ q := fun r hr => hfresh r (by simp [hr])
      rw [ih s1 m h hrest, importKey_lookup_ne s s1 k q v hk hne]
    | none => rw [hk] at h; cases h

theorem importEntries_append (l1 l2 : List (String × JSVal)) :
    ∀ s, importEntries (l1 ++ l2) s =
      (importEntries l1 s).bind (fun s1 => importEntries l2 s1) := by
  induction l1 with
  | nil => intro s; rfl
  | cons p rest ih =>
    intro s
    obtain ⟨k, v⟩ := p
    show (match importKey s k v with
          | some s1 => importEntries (rest ++ l2) s1
          | none => none) =
        (match importKey s k v with
          | some s1 => importEntries rest s1
          | none => none).bind (fun s1 => importEntries l2 s1)
    cases importKey s k v with
    | some s1 => exact ih s1
    | none => rfl

theorem importKey_bad_secret (s : List (String × JSVal)) (k : String) (v : JSVal)
    (hk : k = "secret" ∨ k = "agent_secret" ∨ k = "account_secret")
    (hv : toPrincipal v = none) : importKey s k v = some s := by
  unfold importKey
  rw [if_pos hk, hv]

/-! ## Claim theorems -/

/-- C1 (counterexample): settings export does not invert settings import.
For the settings object whose only key is `secret`, holding the formatted
string of a valid principal, `importSettings` succeeds and stores the
formatted string, but `exportSettings` on the returned map throws: its
`secret` branch applies `SigningPrincipal.format` directly to the stored
string, which is not a principal object. -/
theorem settings_export_import_cx :
    importSettings (.obj [("secret", .didStr sampleBytes)]) =
      some [("secret", JSVal.didStr sampleBytes)] ∧
    exportSettings [("secret", JSVal.didStr sampleBytes)] = none :=
  ⟨rfl, rfl⟩

/-- C1 (amended): for settings objects without a `secret` key whose
`agent_secret` and `account_secret` values are formatted principal strings
and whose `delegations` entries are well-formed (`{ ucan, alias }` with a
JWT token), exporting the imported map succeeds and returns exactly the
original `agent_secret`, `account_secret` and `delegations` entries. -/
theorem settings_export_import_amended (b1 b2 : List Nat)
    (ds : List (String × JSVal)) (h1 : validBytes b1 = true)
    (h2 : validBytes b2 = true) (hds : ∀ p ∈ ds, wfDelegEntry p.2) :
    (importSettings (.obj [("agent_secret", .didStr b1),
        ("account_secret", .didStr b2),
        ("delegations", .obj ds)])).bind exportSettings =
      some [("agent_secret", JSVal.didStr b1),
        ("account_secret", JSVal.didStr b2),
        ("delegations", JSVal.obj ds)] := by
  have himp := importDelegList_wf ds hds
  have hexp := exportDelegList_impD ds hds
  simp [importSettings, importEntries, importKey, toPrincipal, spDecode,
    spParse, h1, h2, importDelegValue, himp, mapSet, spFormatP,
    exportSettings, mapHas, mapLookup, mapGetD, exportDelegValue, hexp]

/-- C1 (witness for the amended theorem) at a concrete settings object
with one delegation. -/
theorem settings_export_import_amended_witness :
    validBytes sampleBytes = true ∧
    (importSettings (.obj [("agent_secret", .didStr sampleBytes),
        ("account_secret", .didStr sampleBytes2),
        ("delegations", .obj [("did:key:aud", .obj [("ucan", .jwtStr (UCANm.mk 1)),
          ("alias", .str "work")])])])).bind exportSettings =
      some [("agent_secret", JSVal.didStr sampleBytes),
        ("account_secret", JSVal.didStr sampleBytes2),
        ("delegations", JSVal.obj [("did:key:aud",
          .obj [("ucan", .jwtStr (UCANm.mk 1)), ("alias", .str "work")])])] :=
  ⟨by decide,
    settings_export_import_amended sampleBytes sampleBytes2 _ (by decide)
      (by decide)
      (by
        intro p hp
        simp only [List.mem_singleton] at hp
        subst hp
        exact ⟨UCANm.mk 1, .str "work", rfl⟩)⟩

/-- C2 (counterexample): the two `Client` class versions in
`src/src/client.js` are not behaviorally equivalent: on a concrete client,
`createSpace` returns the new `Space` in the first version but `undefined`
in the second, and `createDelegation` without `options.audienceMeta`
records default audience metadata named `agent` in the first version but
named by the empty string in the second. -/
theorem client_versions_cx :
    ClientV1.createSpace clientC (some "myspace") ≠
      ClientV2.createSpace clientC (some "myspace") ∧
    ClientV1.createDelegation clientC "did:key:aud" ["store/add"]
        (UCANOptions.mk none none) ≠
      ClientV2.createDelegation clientC "did:key:aud" ["store/add"]
        (UCANOptions.mk none none) := by
  constructor <;> decide

/-- C2 (amended): the two `Client` versions agree on `uploadFile`,
`uploadDirectory`, `agent`, `currentSpace`, `spaces`, and on
`createDelegation` whenever `options.audienceMeta` is supplied; they
differ in `createSpace` (the first returns the created `Space`, the second
returns `undefined`) and in the default `audienceMeta` of
`createDelegation` (`{ name: 'agent', type: 'device' }` versus
`{ name: '', type: 'device' }`). -/
theorem client_versions_amended (c : ClientModel) (f : Nat) (fs : List Nat)
    (o : UploadOptions) (name : Option String) (aud : String)
    (ab : List String) (e : Option Nat) (m : AgentMeta) :
    ClientV1.uploadFile c f o = ClientV2.uploadFile c f o ∧
    ClientV1.uploadDirectory c fs o = ClientV2.uploadDirectory c fs o ∧
    ClientV1.agent c = ClientV2.agent c ∧
    ClientV1.currentSpace c = ClientV2.currentSpace c ∧
    ClientV1.spaces c = ClientV2.spaces c ∧
    ClientV1.createDelegation c aud ab (UCANOptions.mk e (some m)) =
      ClientV2.createDelegation c aud ab (UCANOptions.mk e (some m)) ∧
    ClientV1.createSpace c name =
      some (Space.mk (c.agent.createSpaceFn name).1
        (some (c.agent.createSpaceFn name).2)) ∧
    ClientV2.createSpace c name = none ∧
    (ClientV1.createDelegation c aud ab (UCANOptions.mk e none)).meta =
      DelegMeta.mk (some (AgentMeta.mk "agent" "device")) ∧
    (ClientV2.createDelegation c aud ab (UCANOptions.mk e none)).meta =
      DelegMeta.mk (some (AgentMeta.mk "" "device")) :=
  ⟨rfl, rfl, rfl, rfl, rfl, rfl, rfl, rfl, rfl, rfl⟩

/-- C3: `createDelegation` (both class versions) returns a `Delegation`
built from the root and blocks of the agent's `delegate` call; the
argument object of that call carries the passed audience principal, and
the recorded metadata is `{ audience: options.audienceMeta }` when
`audienceMeta` is supplied. -/
theorem createDelegation_spec (c : ClientModel) (aud : String)
    (ab : List String) (opts : UCANOptions) (m : AgentMeta)
    (h : opts.audienceMeta = some m) :
    ClientV1.createDelegation c aud ab opts =
      ClientDelegation.mk
        (c.agent.delegateFn (DelegateArgs.mk opts.expiration ab aud m)).root
        (c.agent.delegateFn (DelegateArgs.mk opts.expiration ab aud m)).blocks
        (DelegMeta.mk (some m)) ∧
    ClientV2.createDelegation c aud ab opts =
      ClientDelegation.mk
        (c.agent.delegateFn (DelegateArgs.mk opts.expiration ab aud m)).root
        (c.agent.delegateFn (DelegateArgs.mk opts.expiration ab aud m)).blocks
        (DelegMeta.mk (some m)) ∧
    (DelegateArgs.mk opts.expiration ab aud m).audience = aud := by
  obtain ⟨e, am⟩ := opts
  simp only [UCANOptions.audienceMeta] at h
  subst h
  exact ⟨rfl, rfl, rfl⟩

/-- C3 (witness) at a concrete client and supplied audience metadata. -/
theorem createDelegation_spec_witness :
    (UCANOptions.mk (some 5) (some (AgentMeta.mk "phone" "device"))).audienceMeta =
      some (AgentMeta.mk "phone" "device") ∧
    ClientV1.createDelegation clientC "did:key:aud" ["space/info"]
        (UCANOptions.mk (some 5) (some (AgentMeta.mk "phone" "device"))) =
      ClientDelegation.mk
        (clientC.agent.delegateFn (DelegateArgs.mk (some 5) ["space/info"]
          "did:key:aud" (AgentMeta.mk "phone" "device"))).root
        (clientC.agent.delegateFn (DelegateArgs.mk (some 5) ["space/info"]
          "did:key:aud" (AgentMeta.mk "phone" "device"))).blocks
        (DelegMeta.mk (some (AgentMeta.mk "phone" "device"))) :=
  ⟨rfl, (createDelegation_spec clientC "did:key:aud" ["space/info"]
    (UCANOptions.mk (some 5) (some (AgentMeta.mk "phone" "device")))
    (AgentMeta.mk "phone" "device") rfl).1⟩

/-- C4: decoding inverts encoding for delegations: `importDelegation`
applied to the bytes produced by `writeDelegation` succeeds and returns
the delegation that was encoded.  (`src/delegation.js` is not in the
tree; both functions are modelled from the spec.) -/
theorem delegation_write_import_roundtrip (d : WrittenDelegation) :
    importDelegation (writeDelegation d) = some d := by
  obtain ⟨iss, aud, e⟩ := d
  simp [writeDelegation, importDelegation, List.take_left, List.drop_left]

/-- C5: a `secret` / `agent_secret` / `account_secret` key whose value
cannot be converted to a signing principal is skipped without an error:
importing is the same as importing the object without that key, and (when
the rest imports successfully) the returned map omits the key. -/
theorem importSettings_bad_secret (l1 l2 : List (String × JSVal))
    (k : String) (v : JSVal)
    (hk : k = "secret" ∨ k = "agent_secret" ∨ k = "account_secret")
    (hv : toPrincipal v = none) (hfresh : ∀ p ∈ l1 ++ l2, p.1 ≠ k) :
    importSettings (.obj (l1 ++ (k, v) :: l2)) =
      importSettings (.obj (l1 ++ l2)) ∧
    ∀ m, importSettings (.obj (l1 ++ l2)) = some m → mapLookup m k = none := by
  constructor
  · show importEntries (l1 ++ (k, v) :: l2) [] = importEntries (l1 ++ l2) []
    rw [importEntries_append, importEntries_append]
    cases importEntries l1 [] with
    | none => rfl
    | some s =>
      show importEntries ((k, v) :: l2) s = importEntries l2 s
      show (match importKey s k v with
            | some s1 => importEntries l2 s1
            | none => none) = importEntries l2 s
      rw [importKey_bad_secret s k v hk hv]
  · intro m hm
    have habs : ∀ p ∈ l1 ++ l2, p.1 ≠ k := hfresh
    have := importEntries_lookup_ne (l1 ++ l2) k [] m hm habs
    simpa [mapLookup] using this

/-- C5 (witness): a concrete object with an unconvertible `secret` value
and one other key. -/
theorem importSettings_bad_secret_witness :
    importSettings (.obj [("email", .str "user@site"), ("secret", .str "oops")]) =
      importSettings (.obj [("email", .str "user@site")]) ∧
    mapLookup [("email", JSVal.str "user@site")] "secret" = none :=
  ⟨(importSettings_bad_secret [("email", .str "user@site")] [] "secret"
      (.str "oops") (by decide) rfl (by decide)).1,
    (importSettings_bad_secret [("email", .str "user@site")] [] "secret"
      (.str "oops") (by decide) rfl (by decide)).2
      [("email", JSVal.str "user@site")] rfl⟩

/-- C6: `uploadFile` and `uploadDirectory` request the invocation
configuration for exactly the two capabilities `store/add` and
`upload/add` and delegate to the external upload-client entry points with
that configuration and the connection-bearing options, returning the
result. -/
theorem upload_invocation_config (c : ClientModel) (f : Nat) (fs : List Nat)
    (o : UploadOptions) :
    ClientV1.uploadFile c f o =
      (c.uploadFileFn (c.invocationConfigFn ["store/add", "upload/add"]) f
        { o with connection := some c.serviceConfUpload },
       { o with connection := some c.serviceConfUpload }) ∧
    ClientV1.uploadDirectory c fs o =
      (c.uploadDirectoryFn (c.invocationConfigFn ["store/add", "upload/add"]) fs
        { o with connection := some c.serviceConfUpload },
       { o with connection := some c.serviceConfUpload }) :=
  ⟨rfl, rfl⟩

/-- C7: `spaces()` returns exactly one `Space` per entry of the agent's
spaces map, carrying that entry's DID and metadata, in the map's
iteration order. -/
theorem spaces_one_per_entry (c : ClientModel) (i : Nat) :
    (ClientV1.spaces c).length = c.agent.spacesList.length ∧
    (ClientV1.spaces c)[i]? =
      (c.agent.spacesList[i]?).map (fun p => Space.mk p.1 (some p.2)) := by
  constructor
  · simp [ClientV1.spaces]
  · simp [ClientV1.spaces, List.getElem?_map]

/-- C8: `uploadFile` and `uploadDirectory` mutate the caller's options
object: its `connection` field is overwritten with the client's upload
service connection, and every other field is left unchanged. -/
theorem upload_options_frame (c : ClientModel) (f : Nat) (fs : List Nat)
    (o : UploadOptions) :
    ((ClientV1.uploadFile c f o).2.connection = some c.serviceConfUpload ∧
     (ClientV1.uploadFile c f o).2.retries = o.retries ∧
     (ClientV1.uploadFile c f o).2.shardSize = o.shardSize) ∧
    ((ClientV1.uploadDirectory c fs o).2.connection = some c.serviceConfUpload ∧
     (ClientV1.uploadDirectory c fs o).2.retries = o.retries ∧
     (ClientV1.uploadDirectory c fs o).2.shardSize = o.shardSize) :=
  ⟨⟨rfl, rfl, rfl⟩, ⟨rfl, rfl, rfl⟩⟩

/-- C9: `toPrincipal` is total (it returns an `Option` and never throws)
and tries `SigningPrincipal.decode`, then `SigningPrincipal.parse`, then
base64 decoding followed by `SigningPrincipal.decode`, in that order,
returning the first successful result and `null` exactly when all three
attempts fail. -/
theorem toPrincipal_chain (v : JSVal) :
    ((spDecode v).isSome = true → toPrincipal v = spDecode v) ∧
    (spDecode v = none → (spParse v).isSome = true →
      toPrincipal v = spParse v) ∧
    (spDecode v = none → spParse v = none →
      toPrincipal v = (bufferFromB64 v).bind (fun b => spDecode (.bytes b))) ∧
    (toPrincipal v = none ↔ spDecode v = none ∧ spParse v = none ∧
      (bufferFromB64 v).bind (fun b => spDecode (.bytes b)) = none) := by
  cases h1 : spDecode v <;> cases h2 : spParse v <;>
    cases h3 : bufferFromB64 v <;>
      simp [toPrincipal, h1, h2, h3]

/-- C9 (witness): the decoder succeeds on a valid byte string and the
chain returns its result. -/
theorem toPrincipal_chain_witness :
    (spDecode (JSVal.bytes sampleBytes)).isSome = true ∧
    toPrincipal (JSVal.bytes sampleBytes) = spDecode (JSVal.bytes sampleBytes) :=
  ⟨rfl, (toPrincipal_chain (JSVal.bytes sampleBytes)).1 rfl⟩

/-- C10: provided the agent's current-space DID is never the empty string
(DIDs are non-empty `did:` strings), `currentSpace()` returns `undefined`
exactly when the agent has no current space DID, and otherwise a `Space`
carrying that DID and the metadata stored for it in the agent's spaces
map. -/
theorem currentSpace_spec (c : ClientModel)
    (h : c.agent.currentSpaceDid ≠ some "") :
    (ClientV1.currentSpace c = none ↔ c.agent.currentSpaceDid = none) ∧
    ∀ d, c.agent.currentSpaceDid = some d →
      ClientV1.currentSpace c =
        some (Space.mk d (metaLookup c.agent.spacesList d)) := by
  cases hc : c.agent.currentSpaceDid with
  | none => simp [ClientV1.currentSpace, hc]
  | some s =>
    have hs : s ≠ "" := by
      intro hs
      exact h (hs ▸ hc)
    constructor
    · simp [ClientV1.currentSpace, hc, hs]
    · intro d hd
      cases hd
      simp [ClientV1.currentSpace, hc, hs]

/-- C10 (witness) at a concrete client whose current space is set. -/
theorem currentSpace_spec_witness :
    ClientV1.currentSpace clientC =
      some (Space.mk "did:key:space1" (some (SpaceMeta.mk "sp"))) :=
  (currentSpace_spec clientC (by decide)).2 "did:key:space1" rfl

end W3
